import Mathlib

/-!
Verification of the EasyTweeter polling/state-tracking core against its
specification.  The Python source (`EasyTweeter.py`) is shallowly embedded:
ini state files become association lists of sections, the remote feed client
becomes a function parameter, stateful checks become pure functions returning
the new file contents together with the sequence of persist/hook events, and
Python exceptions become `Except` values.  Every definition follows the
control flow of the corresponding source function; remote behaviour that the
repository does not implement (the server-side `since_id` filtering of
fetches) is modelled from the specification and marked as such.
-/

/-! ## Decimal rendering and parsing

The Python code persists identifiers with `str(...)` (embedded as `Nat.repr`)
and reads counters back with `int(...)`.  The lemmas here establish the
round trip used by the marker claims: parsing the decimal rendering of a
natural number yields that number back.
-/

/-- Value of a run of decimal digit characters, most significant first
(the accumulator loop of Python's `int`). -/
def decVal (l : List Char) : Nat :=
  l.foldl (fun n c => n * 10 + (c.toNat - 48)) 0

/-- Parse a non-empty run of decimal digits; `none` on anything else. -/
def decDigits? (l : List Char) : Option Nat :=
  if l ≠ [] ∧ l.all (fun c => c.isDigit) then some (decVal l) else none

/-- Reference decimal renderer: the digit characters of `n`, most
significant first, by division — recursion on the quotient rather than on
fuel, so facts about it follow by strong induction.  `Nat.repr` is proved
equal to it below. -/
def decRender (n : Nat) : List Char :=
  if _hn : n < 10 then [Nat.digitChar n]
  else decRender (n / 10) ++ [Nat.digitChar (n % 10)]
decreasing_by exact Nat.div_lt_self (by omega) (by omega)

/-- Embedding of Python `int(s)` for the strings configparser hands back
(surrounding whitespace already stripped by the ini parser): an optional
sign followed by decimal digits; anything else raises `ValueError`,
embedded as `none`. -/
def parsePyInt (s : String) : Option Int :=
  match s.data with
  | '-' :: rest => (decDigits? rest).map (fun n => -(n : Int))
  | '+' :: rest => (decDigits? rest).map (fun n => (n : Int))
  | l => (decDigits? l).map (fun n => (n : Int))


/-! ## The ini state-file model

Each configparser-backed state file becomes an association list from section
names to sections, a section an association list from keys to string values.
`setSection` mirrors `config['Sec'] = {...}` (replace in place, else append);
a file that does not exist on disk is `none` at use sites.
-/

abbrev IniSection := List (String × String)
abbrev IniFile := List (String × IniSection)

def lookupKey : IniSection → String → Option String
  | [], _ => none
  | p :: rest, k => if p.1 = k then some p.2 else lookupKey rest k

def getSection : IniFile → String → Option IniSection
  | [], _ => none
  | p :: rest, s => if p.1 = s then some p.2 else getSection rest s

def setSection : IniFile → String → IniSection → IniFile
  | [], s, v => [(s, v)]
  | p :: rest, s, v => if p.1 = s then (s, v) :: rest else p :: setSection rest s v

/-- Section read of an optional (possibly absent) state file. -/
def fileSection (f : Option IniFile) (s : String) : Option IniSection :=
  f.bind (fun g => getSection g s)


/-! ## Items and the descending sort

A fetched item exposes the fields the checks read: its identifier, the
`in_reply_to_user_id` field (for the replies check) and the favorite count
(for the favorites check).  `sortDesc` embeds Python's stable
`list.sort(key=lambda x: x.id, reverse=True)`.
-/

structure Item where
  id : Nat
  replyTo : Option Nat := none
  favCount : Nat := 0
deriving DecidableEq, Repr

def insertDesc (x : Item) : List Item → List Item
  | [] => [x]
  | y :: ys => if y.id ≤ x.id then x :: y :: ys else y :: insertDesc x ys

def sortDesc : List Item → List Item
  | [] => []
  | x :: xs => insertDesc x (sortDesc xs)

/-- Maximum identifier of a list of items (0 on the empty list). -/
def maxIds (l : List Item) : Nat :=
  l.foldr (fun i m => max i.id m) 0


/-! ## Embedded operations

Each `check*` method becomes a pure function from the relevant state file
(`Option IniFile`, `none` when the file does not exist) and the remote fetch
(a function parameter, mirroring the tweepy cursor calls) to the outcome,
the state file after the run, and the trace of persist/hook events in the
order the source performs them.
-/

inductive RunErr where
  | keyError
  | missingPermissions
  | tweepOther
deriving DecidableEq, Repr

inductive Ev where
  | persist
  | hook : Nat → Ev
deriving DecidableEq, Repr

deriving instance DecidableEq for Except

structure CheckOut where
  outcome : Except RunErr (List Nat)
  file : Option IniFile
  trace : List Ev
deriving DecidableEq, Repr

/-- Reading a feature's marker out of `latest.ini`: a missing file or a
missing section yields no marker, but a section present without its
`LatestSeen` key is an uncaught Python `KeyError`
(`config['Sec']['LatestSeen']` after only `'Sec' in config` was tested). -/
def loadMarker (file : Option IniFile) (sec : String) : Except Unit (Option String) :=
  match file with
  | none => .ok none
  | some f =>
    match getSection f sec with
    | none => .ok none
    | some s =>
      match lookupKey s "LatestSeen" with
      | some v => .ok (some v)
      | none => .error ()

/-- Embedding of `EasyTweeter.checkRetweets`.  Note the source has its
descending sort commented out, so the persisted marker and the hook order
come from the fetched list as-is. -/
def checkRetweetsModel (file : Option IniFile) (fetch : Option String → List Item) :
    CheckOut :=
  match loadMarker file "Retweets" with
  | .error _ => ⟨.error .keyError, file, []⟩
  | .ok last =>
    match fetch last with
    | [] => ⟨.ok [], file, []⟩
    | m :: rest =>
      let msgs := m :: rest
      let cfg := setSection (file.getD []) "Retweets" [("LatestSeen", Nat.repr m.id)]
      ⟨.ok (msgs.map (fun i => i.id)), some cfg,
        .persist :: msgs.map (fun i => Ev.hook i.id)⟩

/-- Remote failure modes of the direct-message fetch distinguished by the
source: a 403 (`"status code = 403" in e.reason`) versus any other
`TweepError`. -/
inductive DmErr where
  | forbidden403
  | otherTweepError
deriving DecidableEq, Repr

/-- Embedding of `EasyTweeter.checkDirectMessages`: marker load, fetch with
the 403 permission-denial handling, descending sort, persist when non-empty,
then one hook per message. -/
def checkDirectMessagesModel (file : Option IniFile)
    (fetch : Option String → Except DmErr (List Item))
    (failureOnMissingPermission : Bool) : CheckOut :=
  match loadMarker file "DirectMessages" with
  | .error _ => ⟨.error .keyError, file, []⟩
  | .ok last =>
    let fetched : Except RunErr (List Item) :=
      match fetch last with
      | .ok msgs => .ok msgs
      | .error .forbidden403 =>
        if failureOnMissingPermission then .error .missingPermissions else .ok []
      | .error .otherTweepError => .error .tweepOther
    match fetched with
    | .error e => ⟨.error e, file, []⟩
    | .ok msgs =>
      match sortDesc msgs with
      | [] => ⟨.ok [], file, []⟩
      | m :: rest =>
        let sorted := m :: rest
        let cfg := setSection (file.getD []) "DirectMessages"
          [("LatestSeen", Nat.repr m.id)]
        ⟨.ok (sorted.map (fun i => i.id)), some cfg,
          .persist :: sorted.map (fun i => Ev.hook i.id)⟩

/-- Embedding of `EasyTweeter.checkReplies`: the home timeline is filtered
to items whose `in_reply_to_user_id` equals the authenticated account's id,
then sorted descending; marker and hooks come from the sorted survivors. -/
def checkRepliesModel (file : Option IniFile) (fetch : Option String → List Item)
    (myId : Nat) : CheckOut :=
  match loadMarker file "Replies" with
  | .error _ => ⟨.error .keyError, file, []⟩
  | .ok last =>
    let msgs := (fetch last).filter (fun i => i.replyTo = some myId)
    match sortDesc msgs with
    | [] => ⟨.ok [], file, []⟩
    | m :: rest =>
      let sorted := m :: rest
      let cfg := setSection (file.getD []) "Replies" [("LatestSeen", Nat.repr m.id)]
      ⟨.ok (sorted.map (fun i => i.id)), some cfg,
        .persist :: sorted.map (fun i => Ev.hook i.id)⟩

/-- Modelled from the spec: the repository does not implement the remote
feed service, whose listing calls it consumes are "optionally filtered
server-side by since marker M" and bounded by a max-count parameter.  Given
the candidate items the remote holds, a call with `since_id = s` returns the
candidates with identifier strictly greater than `s` (numerically), up to
the bound. -/
def sinceFetch (candidates : List Item) (limit : Nat) (since : Option String) :
    List Item :=
  match since with
  | none => candidates.take limit
  | some s =>
    match decDigits? s.data with
    | some m => (candidates.filter (fun i => m < i.id)).take limit
    | none => []

/-! ## The cadence gate -/

/-- Reading the persisted countdown out of `UpdateCheckInterval.ini`,
exactly as `_shouldCheckUpdates` recovers it: missing file, missing
section, missing key and unparseable value all fall back to 0. -/
def loadCounter (file : Option IniFile) : Int :=
  match file with
  | none => 0
  | some f =>
    match getSection f "Update Check Interval" with
    | none => 0
    | some sec =>
      match lookupKey sec "last" with
      | none => 0
      | some v =>
        match parsePyInt v with
        | none => 0
        | some n => n

/-- Embedding of `EasyTweeter._shouldCheckUpdates`: a positive countdown is
decremented and persisted with answer `false`; otherwise the countdown is
reset to the run interval and persisted with answer `true`.  The write
happens on every call. -/
def shouldCheckUpdatesModel (file : Option IniFile) (runInterval : Int) :
    Bool × IniFile :=
  let loaded := loadCounter file
  if loaded > 0 then
    (false, setSection (file.getD []) "Update Check Interval"
      [("last", Int.repr (loaded - 1))])
  else
    (true, setSection (file.getD []) "Update Check Interval"
      [("last", Int.repr runInterval)])

/-- Embedding of the gate part of `EasyTweeter.checkForUpdates`:
`check = self._shouldCheckUpdates(runInterval)` runs unconditionally, and
the per-feature checks are performed when `runInterval <= 0 or check`. -/
def checkForUpdatesGate (file : Option IniFile) (runInterval : Int) :
    Bool × IniFile :=
  let r := shouldCheckUpdatesModel file runInterval
  (decide (runInterval ≤ 0) || r.1, r.2)

/-! ## Followers -/

/-- Loop body of `checkNewFollowers`: walk the fetched followers, recording
those whose rendered id is not yet in the known list.  Returns the grown
known list and the novel followers in fetch order. -/
def followersStep (known : List String) : List Nat → List String × List Nat
  | [] => (known, [])
  | f :: rest =>
    if Nat.repr f ∈ known then followersStep known rest
    else
      let r := followersStep (known ++ [Nat.repr f]) rest
      (r.1, f :: r.2)

/-- Embedding of `EasyTweeter.checkNewFollowers`: the flat `followers.txt`
line list is the known set; it is rewritten (old lines plus the new ids)
only when some novel follower was found. -/
def checkNewFollowersModel (file : Option (List String)) (fetched : List Nat) :
    Option (List String) × List Nat :=
  let r := followersStep (file.getD []) fetched
  if r.2.isEmpty then (file, r.2) else (some r.1, r.2)

/-! ## Favorites -/

/-- Outcome of a favorites run: the hook payloads (post id and previously
recorded count, `none` standing for the integer 0 default used when the
post has no ledger section) and the ledger file after the run. -/
structure FavOut where
  outcome : Except Unit (List (Nat × Option String))
  file : Option IniFile
deriving DecidableEq, Repr

/-- Loop of `checkFavorites` over the recent posts: posts with favorite
count 0 are skipped; a ledger section without its `favorites` key is an
uncaught Python `KeyError`; otherwise the post is novel exactly when the
rendered current count differs from the recorded string (a post with no
ledger section compares a string against the integer 0, which is always
a difference in Python). -/
def favLoop : List Item → IniFile → List (Nat × Option String) →
    Except Unit (IniFile × List (Nat × Option String))
  | [], cfg, acc => .ok (cfg, acc)
  | msg :: rest, cfg, acc =>
    if 0 < msg.favCount then
      match getSection cfg (Nat.repr msg.id) with
      | some sec =>
        match lookupKey sec "favorites" with
        | none => .error ()
        | some known =>
          if Nat.repr msg.favCount ≠ known then
            favLoop rest
              (setSection cfg (Nat.repr msg.id) [("favorites", Nat.repr msg.favCount)])
              (acc ++ [(msg.id, some known)])
          else favLoop rest cfg acc
      | none =>
        favLoop rest
          (setSection cfg (Nat.repr msg.id) [("favorites", Nat.repr msg.favCount)])
          (acc ++ [(msg.id, none)])
    else favLoop rest cfg acc

/-- Embedding of `EasyTweeter.checkFavorites`: run the ledger loop over the
user's recent timeline; `favorites.ini` is rewritten only when some novel
favorite was found. -/
def checkFavoritesModel (file : Option IniFile) (timeline : List Item) : FavOut :=
  match favLoop timeline (file.getD []) [] with
  | .error _ => ⟨.error (), file⟩
  | .ok (cfg, acc) =>
    if acc.isEmpty then ⟨.ok acc, file⟩ else ⟨.ok acc, some cfg⟩

/-! ## The post publisher -/

def CHARACTER_LIMIT : Nat := 280

inductive RemoteCall where
  | auth
  | updateStatus : Option String → RemoteCall
deriving DecidableEq, Repr

inductive TweetOutcome where
  | posted
  | valueError
  | typeError
deriving DecidableEq, Repr

/-- Embedding of `EasyTweeter.tweet` on a successful remote.  The source
validates with an `if self.api == None: connect / elif ...` chain, so an
unauthenticated client authenticates and submits without any message
validation; and the over-limit branch builds its error text by
concatenating a string with the integer `CHARACTER_LIMIT`, which raises
`TypeError` before the `ValueError` is ever constructed. -/
def tweetModel (connected : Bool) (message : Option String) :
    List RemoteCall × TweetOutcome :=
  if connected = false then
    ([.auth, .updateStatus message], .posted)
  else
    match message with
    | none => ([], .valueError)
    | some m =>
      if CHARACTER_LIMIT < m.length then ([], .typeError)
      else if m.length = 0 then ([], .valueError)
      else ([.updateStatus (some m)], .posted)


/-! ## Library lemmas

Facts about the building blocks above: the decimal round trip, the ini
section operations, and the descending sort.
-/

theorem digitChar_isDigit {m : Nat} (h : m < 10) :
    (Nat.digitChar m).isDigit = true := by
  interval_cases m <;> decide

theorem digitChar_toNat {m : Nat} (h : m < 10) :
    (Nat.digitChar m).toNat - 48 = m := by
  interval_cases m <;> decide

theorem decVal_append_singleton (l : List Char) (c : Char) :
    decVal (l ++ [c]) = decVal l * 10 + (c.toNat - 48) := by
  simp [decVal, List.foldl_append]

/-- With enough fuel, core's `Nat.toDigitsCore` at base 10 prepends the
reference rendering to its accumulator. -/
theorem toDigitsCore_eq_decRender (fuel : Nat) :
    ∀ (n : Nat) (acc : List Char), n < fuel →
      Nat.toDigitsCore 10 fuel n acc = decRender n ++ acc := by
  induction fuel with
  | zero => intro n acc h; omega
  | succ f ih =>
    intro n acc hn
    simp only [Nat.toDigitsCore]
    by_cases h0 : n / 10 = 0
    · have h10 : n < 10 := by omega
      rw [if_pos h0, decRender, dif_pos h10, Nat.mod_eq_of_lt h10]
      rfl
    · have h10 : ¬ n < 10 := by omega
      have hlt : n / 10 < f := by
        have hd : n / 10 < n := Nat.div_lt_self (by omega) (by omega)
        omega
      rw [if_neg h0, decRender, dif_neg h10, ih (n / 10) _ hlt,
        List.append_assoc]
      rfl

/-- The character data of `Nat.repr` is the reference rendering. -/
theorem repr_data_eq_decRender (n : Nat) : (Nat.repr n).data = decRender n := by
  have h := toDigitsCore_eq_decRender (n + 1) n [] (Nat.lt_succ_self n)
  have hdata : (Nat.repr n).data = Nat.toDigitsCore 10 (n + 1) n [] := rfl
  rw [hdata, h, List.append_nil]

/-- The reference rendering is a non-empty digit run valued at `n`. -/
theorem decRender_props (n : Nat) :
    decRender n ≠ [] ∧ (∀ c ∈ decRender n, c.isDigit = true) ∧
      decVal (decRender n) = n := by
  induction n using Nat.strong_induction_on with
  | _ n ih =>
    by_cases h : n < 10
    · rw [decRender, dif_pos h]
      refine ⟨by simp, ?_, ?_⟩
      · intro c hc
        rw [List.mem_singleton] at hc
        subst hc
        exact digitChar_isDigit h
      · simp only [decVal, List.foldl_cons, List.foldl_nil, Nat.zero_mul,
          Nat.zero_add]
        exact digitChar_toNat h
    · rw [decRender, dif_neg h]
      obtain ⟨hne, hdig, hval⟩ := ih (n / 10) (Nat.div_lt_self (by omega) (by omega))
      refine ⟨by simp, ?_, ?_⟩
      · intro c hc
        rcases List.mem_append.mp hc with hc | hc
        · exact hdig c hc
        · rw [List.mem_singleton] at hc
          subst hc
          exact digitChar_isDigit (Nat.mod_lt _ (by omega))
      · rw [decVal_append_singleton, hval, digitChar_toNat (Nat.mod_lt _ (by omega))]
        omega

/-- Parsing the digit run of `Nat.repr` recovers the number. -/
theorem decDigits?_repr (n : Nat) : decDigits? (Nat.repr n).data = some n := by
  obtain ⟨hne, hdig, hval⟩ := decRender_props n
  rw [repr_data_eq_decRender, decDigits?,
    if_pos ⟨hne, List.all_eq_true.mpr hdig⟩, hval]

theorem getSection_setSection_self (f : IniFile) (s : String) (v : IniSection) :
    getSection (setSection f s v) s = some v := by
  induction f with
  | nil => simp [setSection, getSection]
  | cons p rest ih =>
    by_cases h : p.1 = s
    · simp [setSection, getSection, h]
    · simp [setSection, getSection, h, ih]

theorem getSection_setSection_ne (f : IniFile) {s t : String} (v : IniSection)
    (h : t ≠ s) : getSection (setSection f s v) t = getSection f t := by
  induction f with
  | nil => simp [setSection, getSection, Ne.symm h]
  | cons p rest ih =>
    by_cases hp : p.1 = s
    · subst hp
      simp [setSection, getSection, Ne.symm h]
    · by_cases ht : p.1 = t <;>
        simp [setSection, getSection, hp, ht, h, Ne.symm h, ih]

theorem le_maxIds {l : List Item} {i : Item} (h : i ∈ l) : i.id ≤ maxIds l := by
  induction l with
  | nil => cases h
  | cons x xs ih =>
    rcases List.mem_cons.mp h with rfl | h
    · exact Nat.le_max_left _ _
    · exact Nat.le_trans (ih h) (Nat.le_max_right _ _)

theorem maxIds_le {l : List Item} {b : Nat} (h : ∀ i ∈ l, i.id ≤ b) :
    maxIds l ≤ b := by
  induction l with
  | nil => exact Nat.zero_le _
  | cons x xs ih =>
    exact Nat.max_le.mpr ⟨h x (List.mem_cons_self _ _), ih fun i hi => h i (List.mem_cons_of_mem _ hi)⟩

theorem insertDesc_perm (x : Item) (l : List Item) :
    List.Perm (insertDesc x l) (x :: l) := by
  induction l with
  | nil => rfl
  | cons y ys ih =>
    by_cases h : y.id ≤ x.id
    · simp [insertDesc, h]
    · simp only [insertDesc, if_neg h]
      exact List.Perm.trans (List.Perm.cons y ih) (List.Perm.swap x y ys)

theorem sortDesc_perm (l : List Item) : List.Perm (sortDesc l) l := by
  induction l with
  | nil => rfl
  | cons x xs ih =>
    exact List.Perm.trans (insertDesc_perm x (sortDesc xs)) (List.Perm.cons x ih)

theorem insertDesc_sorted {l : List Item} (x : Item)
    (h : List.Pairwise (fun a b => b.id ≤ a.id) l) :
    List.Pairwise (fun a b => b.id ≤ a.id) (insertDesc x l) := by
  induction l with
  | nil => simp [insertDesc]
  | cons y ys ih =>
    rcases List.pairwise_cons.mp h with ⟨hy, hys⟩
    by_cases hle : y.id ≤ x.id
    · rw [insertDesc, if_pos hle]
      refine List.pairwise_cons.mpr ⟨?_, h⟩
      intro b hb
      rcases List.mem_cons.mp hb with rfl | hb
      · exact hle
      · exact Nat.le_trans (hy b hb) hle
    · rw [insertDesc, if_neg hle]
      refine List.pairwise_cons.mpr ⟨?_, ih hys⟩
      intro b hb
      rcases List.mem_cons.mp ((insertDesc_perm x ys).mem_iff.mp hb) with rfl | hb
      · exact Nat.le_of_not_le hle
      · exact hy b hb

theorem sortDesc_sorted (l : List Item) :
    List.Pairwise (fun a b => b.id ≤ a.id) (sortDesc l) := by
  induction l with
  | nil => exact List.Pairwise.nil
  | cons x xs ih => exact insertDesc_sorted x ih

/-- The head of the descending sort carries the maximum identifier. -/
theorem sortDesc_head_id {l : List Item} {m : Item} {rest : List Item}
    (h : sortDesc l = m :: rest) : m.id = maxIds l := by
  have hperm := sortDesc_perm l
  have hmem : m ∈ l := hperm.mem_iff.mp (by rw [h]; exact List.mem_cons_self _ _)
  have hsorted := sortDesc_sorted l
  rw [h] at hsorted
  rcases List.pairwise_cons.mp hsorted with ⟨hrest, _⟩
  have hsub : ∀ i ∈ l, i ∈ m :: rest := by
    intro i hi
    rw [← h]
    exact hperm.symm.subset hi
  refine Nat.le_antisymm (le_maxIds hmem) (maxIds_le ?_)
  intro i hi
  rcases List.mem_cons.mp (hsub i hi) with rfl | h1
  · exact Nat.le_refl _
  · exact hrest i h1

theorem sortDesc_eq_nil_iff {l : List Item} : sortDesc l = [] ↔ l = [] := by
  constructor
  · intro h
    have := sortDesc_perm l
    rw [h] at this
    exact this.symm.eq_nil
  · intro h; rw [h]; rfl
/-! ## Run characterisations

Closed forms of each check under the possible marker-load and fetch
outcomes, used by the claim theorems below.
-/

theorem checkRetweetsModel_run {file : Option IniFile}
    {fetch : Option String → List Item} {last : Option String} {m : Item}
    {rest : List Item} (h : loadMarker file "Retweets" = .ok last)
    (hf : fetch last = m :: rest) :
    checkRetweetsModel file fetch =
      ⟨.ok ((m :: rest).map (fun i => i.id)),
       some (setSection (file.getD []) "Retweets" [("LatestSeen", Nat.repr m.id)]),
       .persist :: (m :: rest).map (fun i => Ev.hook i.id)⟩ := by
  simp only [checkRetweetsModel, h, hf]

theorem checkRetweetsModel_empty {file : Option IniFile}
    {fetch : Option String → List Item} {last : Option String}
    (h : loadMarker file "Retweets" = .ok last) (hf : fetch last = []) :
    checkRetweetsModel file fetch = ⟨.ok [], file, []⟩ := by
  simp only [checkRetweetsModel, h, hf]

theorem checkDirectMessagesModel_run {file : Option IniFile}
    {fetch : Option String → Except DmErr (List Item)} {last : Option String}
    {msgs : List Item} {fomp : Bool}
    (h : loadMarker file "DirectMessages" = .ok last) (hf : fetch last = .ok msgs)
    {m : Item} {rest : List Item} (hs : sortDesc msgs = m :: rest) :
    checkDirectMessagesModel file fetch fomp =
      ⟨.ok ((m :: rest).map (fun i => i.id)),
       some (setSection (file.getD []) "DirectMessages"
         [("LatestSeen", Nat.repr m.id)]),
       .persist :: (m :: rest).map (fun i => Ev.hook i.id)⟩ := by
  simp only [checkDirectMessagesModel, h, hf, hs]

theorem checkDirectMessagesModel_empty {file : Option IniFile}
    {fetch : Option String → Except DmErr (List Item)} {last : Option String}
    {fomp : Bool} (h : loadMarker file "DirectMessages" = .ok last)
    (hf : fetch last = .ok []) :
    checkDirectMessagesModel file fetch fomp = ⟨.ok [], file, []⟩ := by
  simp only [checkDirectMessagesModel, h, hf]
  rfl

theorem checkRepliesModel_run {file : Option IniFile}
    {fetch : Option String → List Item} {last : Option String} {myId : Nat}
    {m : Item} {rest : List Item} (h : loadMarker file "Replies" = .ok last)
    (hs : sortDesc ((fetch last).filter (fun i => i.replyTo = some myId)) = m :: rest) :
    checkRepliesModel file fetch myId =
      ⟨.ok ((m :: rest).map (fun i => i.id)),
       some (setSection (file.getD []) "Replies" [("LatestSeen", Nat.repr m.id)]),
       .persist :: (m :: rest).map (fun i => Ev.hook i.id)⟩ := by
  simp only [checkRepliesModel, h, hs]

theorem checkRepliesModel_empty {file : Option IniFile}
    {fetch : Option String → List Item} {last : Option String} {myId : Nat}
    (h : loadMarker file "Replies" = .ok last)
    (hs : sortDesc ((fetch last).filter (fun i => i.replyTo = some myId)) = []) :
    checkRepliesModel file fetch myId = ⟨.ok [], file, []⟩ := by
  simp only [checkRepliesModel, h, hs]

/-- Writing one section of a possibly-absent file does not change what any
other section reads as. -/
theorem fileSection_write {file : Option IniFile} {s t : String}
    (v : IniSection) (h : t ≠ s) :
    fileSection (some (setSection (file.getD []) s v)) t = fileSection file t := by
  cases file with
  | none => simp [fileSection, getSection_setSection_ne [] v h, getSection, Ne.symm h]
  | some f => simp [fileSection, getSection_setSection_ne f v h]

/-! ## Claim C2: the cadence gate at interval 3 -/

/-- C2 counterexample.  The claim says that with interval 3 and a
freshly-reset counter (persisted value 3) the third call to the gate
returns "check" and resets the persisted counter to 3.  On the code the
third call still skips and persists 0; the reset happens on the fourth
call. -/
theorem C2_cadence_counterexample :
    (shouldCheckUpdatesModel (some [("Update Check Interval", [("last", "3")])]) 3).1
      = false ∧
    (shouldCheckUpdatesModel
      (some (shouldCheckUpdatesModel
        (some [("Update Check Interval", [("last", "3")])]) 3).2) 3).1 = false ∧
    (shouldCheckUpdatesModel
      (some (shouldCheckUpdatesModel
        (some (shouldCheckUpdatesModel
          (some [("Update Check Interval", [("last", "3")])]) 3).2) 3).2) 3)
      = (false, [("Update Check Interval", [("last", "0")])]) := by
  decide

/-- C2 amended: with interval 3 and a freshly-reset counter, the first
three calls to the gate return "skip", the persisted counter decrementing
3→2→1→0, and the fourth call returns "check" and resets the persisted
counter to 3. -/
theorem C2_cadence_amended :
    (shouldCheckUpdatesModel (some [("Update Check Interval", [("last", "3")])]) 3)
      = (false, [("Update Check Interval", [("last", "2")])]) ∧
    (shouldCheckUpdatesModel (some [("Update Check Interval", [("last", "2")])]) 3)
      = (false, [("Update Check Interval", [("last", "1")])]) ∧
    (shouldCheckUpdatesModel (some [("Update Check Interval", [("last", "1")])]) 3)
      = (false, [("Update Check Interval", [("last", "0")])]) ∧
    (shouldCheckUpdatesModel (some [("Update Check Interval", [("last", "0")])]) 3)
      = (true, [("Update Check Interval", [("last", "3")])]) :=
  ⟨by decide, by decide, by decide, by decide⟩

/-! ## Claim C3: message validation in `tweet` -/

set_option maxRecDepth 4000 in
/-- C3 evaluated on the code.  The claim says an absent, empty or
over-limit message always fails with `ValueError` and performs no remote
call, regardless of authentication.  On the code: an over-limit message on
an authenticated client raises `TypeError` (the error text concatenates a
string with the integer `CHARACTER_LIMIT`); an unauthenticated client
skips validation entirely (the `if api == None / elif` chain), so even a
`None` message authenticates and submits to the remote.  Only the absent
and empty cases on an authenticated client behave as claimed. -/
theorem C3_tweet_validation_bug :
    tweetModel true (some (String.mk (List.replicate 281 'a')))
      = ([], .typeError) ∧
    tweetModel false none = ([.auth, .updateStatus none], .posted) ∧
    tweetModel false (some "") = ([.auth, .updateStatus (some "")], .posted) ∧
    tweetModel true none = ([], .valueError) ∧
    tweetModel true (some "") = ([], .valueError) := by
  decide

/-! ## Claim C4: `checkForUpdates` with a non-positive interval -/

/-- C4 counterexample.  The claim says that with run interval ≤ 0 the
cadence counter file is neither read nor written, its state (including
absence) identical before and after.  On the code `_shouldCheckUpdates`
runs unconditionally before the `runInterval <= 0` test: with no counter
file a file gets created, and an existing counter 5 is rewritten to 4. -/
theorem C4_gate_counterexample :
    (checkForUpdatesGate none 0).2
      = [("Update Check Interval", [("last", "0")])] ∧
    (checkForUpdatesGate (some [("Update Check Interval", [("last", "5")])]) 0).2
      = [("Update Check Interval", [("last", "4")])] := by
  decide

/-- C4 amended: with run interval ≤ 0 the per-feature checks are always
performed on that invocation, but the persisted cadence counter file is
still read and rewritten exactly as on any other call — decremented when
the loaded countdown is positive, otherwise reset to the (non-positive)
interval. -/
theorem C4_gate_amended (file : Option IniFile) (ri : Int) (h : ri ≤ 0) :
    (checkForUpdatesGate file ri).1 = true ∧
    getSection (checkForUpdatesGate file ri).2 "Update Check Interval" =
      some [("last",
        Int.repr (if 0 < loadCounter file then loadCounter file - 1 else ri))] := by
  constructor
  · simp only [checkForUpdatesGate, Bool.or_eq_true, decide_eq_true_eq]
    exact Or.inl h
  · simp only [checkForUpdatesGate, shouldCheckUpdatesModel]
    by_cases hl : loadCounter file > 0
    · rw [if_pos hl, if_pos hl]
      exact getSection_setSection_self _ _ _
    · rw [if_neg hl, if_neg hl]
      exact getSection_setSection_self _ _ _

/-- C4 witness: the amended statement at interval 0 on an absent file. -/
theorem C4_gate_amended_witness :
    (checkForUpdatesGate none 0).1 = true ∧
    getSection (checkForUpdatesGate none 0).2 "Update Check Interval" =
      some [("last",
        Int.repr (if 0 < loadCounter none then loadCounter none - 1 else 0))] :=
  C4_gate_amended none 0 (by decide)

/-! ## Claim C5: direct-message permission denial -/

/-- C5: when the direct-message fetch fails with the 403 permission-denial
signal, `checkDirectMessages` with the ignore option (the default,
`failureOnMissingPermission = false`) returns an empty result, raises
nothing, touches no state and invokes no hook; with the option disabled it
raises the missing-permissions error. -/
theorem C5_dm_permission_denial {file : Option IniFile} {last : Option String}
    (h : loadMarker file "DirectMessages" = .ok last)
    (fetch : Option String → Except DmErr (List Item))
    (hf : fetch last = .error .forbidden403) :
    checkDirectMessagesModel file fetch false = ⟨.ok [], file, []⟩ ∧
    checkDirectMessagesModel file fetch true
      = ⟨.error .missingPermissions, file, []⟩ := by
  constructor <;> simp only [checkDirectMessagesModel, h, hf] <;> rfl

/-- C5 witness: a 403-failing fetch on an absent state file. -/
theorem C5_dm_permission_denial_witness :
    checkDirectMessagesModel none (fun _ => .error .forbidden403) false
      = ⟨.ok [], none, []⟩ ∧
    checkDirectMessagesModel none (fun _ => .error .forbidden403) true
      = ⟨.error .missingPermissions, none, []⟩ :=
  @C5_dm_permission_denial none none rfl (fun _ => .error .forbidden403) rfl

/-! ## Claim C10: marker sections share one file but stay isolated -/

theorem checkRetweetsModel_err {file : Option IniFile}
    {fetch : Option String → List Item}
    (h : loadMarker file "Retweets" = .error ()) :
    checkRetweetsModel file fetch = ⟨.error .keyError, file, []⟩ := by
  simp only [checkRetweetsModel, h]

theorem checkRepliesModel_err {file : Option IniFile}
    {fetch : Option String → List Item} {myId : Nat}
    (h : loadMarker file "Replies" = .error ()) :
    checkRepliesModel file fetch myId = ⟨.error .keyError, file, []⟩ := by
  simp only [checkRepliesModel, h]

/-- After any direct-messages run the state file is either untouched or the
whole-file rewrite that replaces only the `DirectMessages` section. -/
theorem checkDirectMessagesModel_file_cases (file : Option IniFile)
    (fetch : Option String → Except DmErr (List Item)) (fomp : Bool) :
    (checkDirectMessagesModel file fetch fomp).file = file ∨
    ∃ v, (checkDirectMessagesModel file fetch fomp).file =
      some (setSection (file.getD []) "DirectMessages" v) := by
  simp only [checkDirectMessagesModel]
  split
  · exact Or.inl rfl
  · split
    · exact Or.inl rfl
    · split
      · exact Or.inl rfl
      · exact Or.inr ⟨_, rfl⟩

theorem checkRetweetsModel_file_cases (file : Option IniFile)
    (fetch : Option String → List Item) :
    (checkRetweetsModel file fetch).file = file ∨
    ∃ v, (checkRetweetsModel file fetch).file =
      some (setSection (file.getD []) "Retweets" v) := by
  simp only [checkRetweetsModel]
  split
  · exact Or.inl rfl
  · split
    · exact Or.inl rfl
    · exact Or.inr ⟨_, rfl⟩

theorem checkRepliesModel_file_cases (file : Option IniFile)
    (fetch : Option String → List Item) (myId : Nat) :
    (checkRepliesModel file fetch myId).file = file ∨
    ∃ v, (checkRepliesModel file fetch myId).file =
      some (setSection (file.getD []) "Replies" v) := by
  simp only [checkRepliesModel]
  split
  · exact Or.inl rfl
  · split
    · exact Or.inl rfl
    · exact Or.inr ⟨_, rfl⟩

/-- C10: the retweets, replies and direct-messages markers live in separate
sections of the one shared `latest.ini`; each check reads the whole file
before rewriting it, so a run of any one of the three checks leaves the
other two features' marker sections exactly as they were, whatever the
state file and whatever the remote returns. -/
theorem C10_latest_ini_sections_isolated (file : Option IniFile)
    (fetch : Option String → List Item)
    (fetchDm : Option String → Except DmErr (List Item)) (fomp : Bool)
    (myId : Nat) :
    (fileSection (checkRetweetsModel file fetch).file "Replies"
        = fileSection file "Replies" ∧
      fileSection (checkRetweetsModel file fetch).file "DirectMessages"
        = fileSection file "DirectMessages") ∧
    (fileSection (checkRepliesModel file fetch myId).file "Retweets"
        = fileSection file "Retweets" ∧
      fileSection (checkRepliesModel file fetch myId).file "DirectMessages"
        = fileSection file "DirectMessages") ∧
    (fileSection (checkDirectMessagesModel file fetchDm fomp).file "Retweets"
        = fileSection file "Retweets" ∧
      fileSection (checkDirectMessagesModel file fetchDm fomp).file "Replies"
        = fileSection file "Replies") := by
  refine ⟨⟨?_, ?_⟩, ⟨?_, ?_⟩, ⟨?_, ?_⟩⟩
  · rcases checkRetweetsModel_file_cases file fetch with h | ⟨v, h⟩ <;> rw [h]
    exact fileSection_write v (by decide)
  · rcases checkRetweetsModel_file_cases file fetch with h | ⟨v, h⟩ <;> rw [h]
    exact fileSection_write v (by decide)
  · rcases checkRepliesModel_file_cases file fetch myId with h | ⟨v, h⟩ <;> rw [h]
    exact fileSection_write v (by decide)
  · rcases checkRepliesModel_file_cases file fetch myId with h | ⟨v, h⟩ <;> rw [h]
    exact fileSection_write v (by decide)
  · rcases checkDirectMessagesModel_file_cases file fetchDm fomp with h | ⟨v, h⟩ <;> rw [h]
    exact fileSection_write v (by decide)
  · rcases checkDirectMessagesModel_file_cases file fetchDm fomp with h | ⟨v, h⟩ <;> rw [h]
    exact fileSection_write v (by decide)

/-! ## Claim C8: follower-set idempotence -/

theorem followersStep_known_mono (fetched : List Nat) :
    ∀ (known : List String), ∀ x ∈ known, x ∈ (followersStep known fetched).1 := by
  induction fetched with
  | nil => intro known x hx; exact hx
  | cons f rest ih =>
    intro known x hx
    by_cases h : Nat.repr f ∈ known
    · rw [followersStep, if_pos h]
      exact ih known x hx
    · rw [followersStep, if_neg h]
      exact ih (known ++ [Nat.repr f]) x (List.mem_append_left _ hx)

theorem followersStep_fetched_mem (fetched : List Nat) :
    ∀ (known : List String), ∀ f ∈ fetched,
      Nat.repr f ∈ (followersStep known fetched).1 := by
  induction fetched with
  | nil => intro known f hf; cases hf
  | cons g rest ih =>
    intro known f hf
    by_cases h : Nat.repr g ∈ known
    · rw [followersStep, if_pos h]
      rcases List.mem_cons.mp hf with rfl | hf
      · exact followersStep_known_mono rest known _ h
      · exact ih known f hf
    · rw [followersStep, if_neg h]
      rcases List.mem_cons.mp hf with rfl | hf
      · exact followersStep_known_mono rest _ _
          (List.mem_append_right _ (List.mem_singleton_self _))
      · exact ih (known ++ [Nat.repr g]) f hf

theorem followersStep_all_known (fetched : List Nat) :
    ∀ (known : List String), (∀ f ∈ fetched, Nat.repr f ∈ known) →
      followersStep known fetched = (known, []) := by
  induction fetched with
  | nil => intro known _; rfl
  | cons g rest ih =>
    intro known h
    rw [followersStep, if_pos (h g (List.mem_cons_self _ _))]
    exact ih known fun f hf => h f (List.mem_cons_of_mem _ hf)

theorem followersStep_no_novel (fetched : List Nat) :
    ∀ (known : List String), (followersStep known fetched).2 = [] →
      (followersStep known fetched).1 = known ∧
        ∀ f ∈ fetched, Nat.repr f ∈ known := by
  induction fetched with
  | nil => intro known _; exact ⟨rfl, fun f hf => absurd hf (List.not_mem_nil f)⟩
  | cons g rest ih =>
    intro known h
    by_cases hg : Nat.repr g ∈ known
    · rw [followersStep, if_pos hg] at h ⊢
      rcases ih known h with ⟨h1, h2⟩
      refine ⟨h1, fun f hf => ?_⟩
      rcases List.mem_cons.mp hf with rfl | hf
      · exact hg
      · exact h2 f hf
    · rw [followersStep, if_neg hg] at h
      cases h

/-- C8: `checkNewFollowers` is idempotent on its persisted state: a second
run against identical remote follower data finds zero novel followers (so
no hooks fire) and leaves the persisted follower list exactly as after the
first run; and no identifier recorded before the first run is ever
removed by it. -/
theorem C8_followers_idempotent (file : Option (List String)) (fetched : List Nat) :
    (checkNewFollowersModel (checkNewFollowersModel file fetched).1 fetched).2 = [] ∧
    (checkNewFollowersModel (checkNewFollowersModel file fetched).1 fetched).1 =
      (checkNewFollowersModel file fetched).1 ∧
    ∀ x ∈ file.getD [], x ∈ ((checkNewFollowersModel file fetched).1).getD [] := by
  by_cases h : (followersStep (file.getD []) fetched).2.isEmpty
  · have hnil : (followersStep (file.getD []) fetched).2 = [] :=
      List.isEmpty_iff.mp h
    rcases followersStep_no_novel fetched (file.getD []) hnil with ⟨_, hknown⟩
    have hfirst : checkNewFollowersModel file fetched = (file, (followersStep (file.getD []) fetched).2) := by
      rw [checkNewFollowersModel, if_pos h]
    have hagain : followersStep (file.getD []) fetched = (file.getD [], []) :=
      followersStep_all_known fetched (file.getD []) hknown
    refine ⟨?_, ?_, ?_⟩
    · rw [hfirst, checkNewFollowersModel, hagain]
      rfl
    · rw [hfirst, checkNewFollowersModel, hagain]
      rfl
    · intro x hx
      rw [hfirst]
      exact hx
  · have hfirst : checkNewFollowersModel file fetched =
        (some (followersStep (file.getD []) fetched).1,
         (followersStep (file.getD []) fetched).2) := by
      rw [checkNewFollowersModel, if_neg h]
    have hmem : ∀ f ∈ fetched,
        Nat.repr f ∈ (followersStep (file.getD []) fetched).1 :=
      fun f hf => followersStep_fetched_mem fetched (file.getD []) f hf
    have hagain : followersStep (followersStep (file.getD []) fetched).1 fetched =
        ((followersStep (file.getD []) fetched).1, []) :=
      followersStep_all_known fetched _ hmem
    refine ⟨?_, ?_, ?_⟩
    · rw [hfirst, checkNewFollowersModel]
      simp only [Option.getD_some, hagain]
      rfl
    · rw [hfirst, checkNewFollowersModel]
      simp only [Option.getD_some, hagain]
      rfl
    · intro x hx
      rw [hfirst]
      exact followersStep_known_mono fetched (file.getD []) x hx

/-! ## Claim C7: favorite-count change detection -/

/-- C7 counterexample.  The claim says any post whose remote-reported
count differs from the ledger-recorded count is novel, triggers the hook
and updates the ledger.  On the code a post with recorded count 3 and
reported count 0 differs but is skipped outright (`favorite_count > 0`
guards the whole comparison): no novelty, no hook, ledger untouched. -/
theorem C7_favorites_counterexample :
    checkFavoritesModel (some [("1", [("favorites", "3")])]) [⟨1, none, 0⟩] =
      ⟨.ok [], some [("1", [("favorites", "3")])]⟩ := by
  decide

/-- C7 amended: over a single recent post with a positive remote-reported
count, the post is not novel when the rendered reported count equals the
ledger-recorded string (recorded counts are persisted and compared as
their decimal renderings), and is novel when it differs — triggering
exactly one hook with the previously recorded value and rewriting the
ledger entry to the reported count; a post with no ledger entry and a
positive reported count is likewise novel.  A reported count of 0 is
skipped regardless of the recorded value. -/
theorem C7_favorites_amended (pid reported : Nat) (s : String) :
    (Nat.repr reported = s →
      checkFavoritesModel (some [(Nat.repr pid, [("favorites", s)])])
          [⟨pid, none, reported⟩] =
        ⟨.ok [], some [(Nat.repr pid, [("favorites", s)])]⟩) ∧
    (0 < reported → Nat.repr reported ≠ s →
      checkFavoritesModel (some [(Nat.repr pid, [("favorites", s)])])
          [⟨pid, none, reported⟩] =
        ⟨.ok [(pid, some s)],
         some [(Nat.repr pid, [("favorites", Nat.repr reported)])]⟩) ∧
    (0 < reported →
      checkFavoritesModel none [⟨pid, none, reported⟩] =
        ⟨.ok [(pid, none)],
         some [(Nat.repr pid, [("favorites", Nat.repr reported)])]⟩) := by
  refine ⟨?_, ?_, ?_⟩
  · intro hs
    by_cases hrep : 0 < reported
    · simp [checkFavoritesModel, favLoop, hrep, getSection, lookupKey, hs]
    · simp [checkFavoritesModel, favLoop, hrep]
  · intro hrep hs
    simp [checkFavoritesModel, favLoop, hrep, getSection, lookupKey, hs, setSection]
  · intro hrep
    simp [checkFavoritesModel, favLoop, hrep, getSection, lookupKey, setSection]

/-- C7 witness: recorded "3" with reported 3 is not novel; recorded "3"
with reported 5 is novel, hooks once with the previous value and updates
the ledger entry to 5. -/
theorem C7_favorites_amended_witness :
    checkFavoritesModel (some [(Nat.repr 1, [("favorites", "3")])])
        [⟨1, none, 3⟩] =
      ⟨.ok [], some [(Nat.repr 1, [("favorites", "3")])]⟩ ∧
    checkFavoritesModel (some [(Nat.repr 1, [("favorites", "3")])])
        [⟨1, none, 5⟩] =
      ⟨.ok [(1, some "3")],
       some [(Nat.repr 1, [("favorites", Nat.repr 5)])]⟩ :=
  ⟨(C7_favorites_amended 1 3 "3").1 (by decide),
   (C7_favorites_amended 1 5 "3").2.1 (by decide) (by decide)⟩

/-! ## Claim C6: defaults and fallbacks on state loads -/

/-- C6 counterexample.  The claim says every malformed or incomplete state
file is logged and replaced by the default without raising.  On the code a
`latest.ini` whose `DirectMessages` section is present without its
`LatestSeen` key makes `checkDirectMessages` raise a `KeyError` to the
caller (`config['DirectMessages']['LatestSeen']` is read after testing
only for the section). -/
theorem C6_state_load_counterexample :
    loadMarker (some [("DirectMessages", [])]) "DirectMessages" = .error () ∧
    (checkDirectMessagesModel (some [("DirectMessages", [])])
        (fun _ => .ok []) false).outcome = .error .keyError := by
  decide

/-- C6 amended: a missing file is treated as empty/default state by every
load (cadence counter, per-feature markers, follower set, favorite
ledger), a missing section likewise, and the cadence counter additionally
falls back to 0 on a missing key or an unparseable value without raising;
but a marker section present without its `LatestSeen` key, or a favorite
ledger section present without its `favorites` key, raises an uncaught
`KeyError` to the caller instead of falling back. -/
theorem C6_state_load_defaults :
    (loadCounter none = 0 ∧
      (∀ f : IniFile, getSection f "Update Check Interval" = none →
        loadCounter (some f) = 0) ∧
      (∀ (f : IniFile) (sec : IniSection),
        getSection f "Update Check Interval" = some sec →
        lookupKey sec "last" = none → loadCounter (some f) = 0) ∧
      (∀ (f : IniFile) (sec : IniSection) (v : String),
        getSection f "Update Check Interval" = some sec →
        lookupKey sec "last" = some v → parsePyInt v = none →
        loadCounter (some f) = 0)) ∧
    ((∀ sec : String, loadMarker none sec = .ok none) ∧
      (∀ (f : IniFile) (sec : String), getSection f sec = none →
        loadMarker (some f) sec = .ok none) ∧
      (∀ (f : IniFile) (sec : String) (s : IniSection),
        getSection f sec = some s → lookupKey s "LatestSeen" = none →
        loadMarker (some f) sec = .error ())) ∧
    (∀ fetched : List Nat,
      (checkNewFollowersModel none fetched).2 =
        (checkNewFollowersModel (some []) fetched).2 ∧
      ((checkNewFollowersModel none fetched).1).getD [] =
        ((checkNewFollowersModel (some []) fetched).1).getD []) ∧
    ((∀ timeline : List Item,
      (checkFavoritesModel none timeline).outcome =
        (checkFavoritesModel (some []) timeline).outcome ∧
      ((checkFavoritesModel none timeline).file).getD [] =
        ((checkFavoritesModel (some []) timeline).file).getD []) ∧
      (∀ (pid c : Nat) (rest : List Item), 0 < c →
        (checkFavoritesModel (some [(Nat.repr pid, [])])
          (⟨pid, none, c⟩ :: rest)).outcome = .error ())) := by
  refine ⟨⟨rfl, ?_, ?_, ?_⟩, ⟨fun sec => rfl, ?_, ?_⟩, ?_, ?_, ?_⟩
  · intro f h
    simp [loadCounter, h]
  · intro f sec h1 h2
    simp [loadCounter, h1, h2]
  · intro f sec v h1 h2 h3
    simp [loadCounter, h1, h2, h3]
  · intro f sec h
    simp [loadMarker, h]
  · intro f sec s h1 h2
    simp [loadMarker, h1, h2]
  · intro fetched
    by_cases h : (followersStep [] fetched).2.isEmpty <;>
      constructor <;>
        simp [checkNewFollowersModel, h]
  · intro timeline
    cases h : favLoop timeline [] [] with
    | error e => constructor <;> simp [checkFavoritesModel, h]
    | ok r =>
      by_cases ha : r.2.isEmpty <;> constructor <;>
        simp [checkFavoritesModel, h, ha]
  · intro pid c rest hc
    simp [checkFavoritesModel, favLoop, hc, getSection, lookupKey]

/-- C6 witness: an unparseable counter value falls back to 0; a marker
section without its key errors; a ledger section without its key errors. -/
theorem C6_state_load_defaults_witness :
    loadCounter (some [("Update Check Interval", [("last", "junk")])]) = 0 ∧
    loadMarker (some [("Retweets", [])]) "Retweets" = .error () ∧
    (checkFavoritesModel (some [(Nat.repr 7, [])]) [⟨7, none, 2⟩]).outcome
      = .error () :=
  ⟨C6_state_load_defaults.1.2.2.2 [("Update Check Interval", [("last", "junk")])]
      [("last", "junk")] "junk" (by decide) (by decide) (by decide),
   C6_state_load_defaults.2.1.2.2 [("Retweets", [])] "Retweets" [] (by decide)
      (by decide),
   C6_state_load_defaults.2.2.2.2 7 2 [] (by decide)⟩

/-! ## Claim C1: marker advancement and marker-bounded refetch -/

/-- C1 counterexample.  The claim says both checks persist the maximum
identifier among the fetched items (fetched {5, 9, 3} ⇒ marker 9).  The
source of `checkRetweets` has its sort commented out and stores
`newMessages[0].id`, the first item in fetch order: fetched 5, 9, 3 in
that order persists marker 5, not the maximum 9. -/
theorem C1_marker_counterexample :
    fileSection (checkRetweetsModel none
        (fun _ => [⟨5, none, 0⟩, ⟨9, none, 0⟩, ⟨3, none, 0⟩])).file "Retweets"
      = some [("LatestSeen", "5")] ∧
    maxIds [⟨5, none, 0⟩, ⟨9, none, 0⟩, ⟨3, none, 0⟩] = 9 := by
  decide

/-- C1 amended: after a run with a non-empty fetch, `checkDirectMessages`
persists the maximum identifier among the fetched items, while
`checkRetweets` persists the identifier of the first item in fetch order —
which equals the maximum whenever the remote returns items in descending
identifier order; a subsequent run of either check against the
spec-modelled marker-bounded remote whose candidates all have identifiers
≤ the persisted marker reports zero novel items and leaves the state file
untouched; and a run whose fetch returns no items leaves the state file
untouched. -/
theorem C1_marker_amended :
    (∀ (file : Option IniFile) (fetch : Option String → List Item)
        (last : Option String) (m : Item) (rest : List Item),
      loadMarker file "Retweets" = .ok last → fetch last = m :: rest →
      fileSection (checkRetweetsModel file fetch).file "Retweets" =
        some [("LatestSeen", Nat.repr m.id)]) ∧
    (∀ (file : Option IniFile) (fetch : Option String → List Item)
        (last : Option String) (m : Item) (rest : List Item),
      loadMarker file "Retweets" = .ok last → fetch last = m :: rest →
      List.Pairwise (fun a b => b.id ≤ a.id) (m :: rest) →
      fileSection (checkRetweetsModel file fetch).file "Retweets" =
        some [("LatestSeen", Nat.repr (maxIds (m :: rest)))]) ∧
    (∀ (file : Option IniFile) (fetch : Option String → Except DmErr (List Item))
        (fomp : Bool) (last : Option String) (msgs : List Item),
      loadMarker file "DirectMessages" = .ok last → fetch last = .ok msgs →
      msgs ≠ [] →
      fileSection (checkDirectMessagesModel file fetch fomp).file "DirectMessages" =
        some [("LatestSeen", Nat.repr (maxIds msgs))]) ∧
    (∀ (file : Option IniFile) (mk : Nat) (candidates : List Item) (limit : Nat),
      loadMarker file "Retweets" = .ok (some (Nat.repr mk)) →
      (∀ i ∈ candidates, i.id ≤ mk) →
      checkRetweetsModel file (sinceFetch candidates limit) = ⟨.ok [], file, []⟩) ∧
    (∀ (file : Option IniFile) (mk : Nat) (candidates : List Item) (limit : Nat)
        (fomp : Bool),
      loadMarker file "DirectMessages" = .ok (some (Nat.repr mk)) →
      (∀ i ∈ candidates, i.id ≤ mk) →
      checkDirectMessagesModel file
        (fun o => .ok (sinceFetch candidates limit o)) fomp = ⟨.ok [], file, []⟩) ∧
    (∀ (file : Option IniFile) (fetch : Option String → List Item)
        (last : Option String),
      loadMarker file "Retweets" = .ok last → fetch last = [] →
      checkRetweetsModel file fetch = ⟨.ok [], file, []⟩) ∧
    (∀ (file : Option IniFile) (fetch : Option String → Except DmErr (List Item))
        (fomp : Bool) (last : Option String),
      loadMarker file "DirectMessages" = .ok last → fetch last = .ok [] →
      checkDirectMessagesModel file fetch fomp = ⟨.ok [], file, []⟩) := by
  have hfilter : ∀ (candidates : List Item) (mk : Nat) (limit : Nat),
      (∀ i ∈ candidates, i.id ≤ mk) →
      sinceFetch candidates limit (some (Nat.repr mk)) = [] := by
    intro candidates mk limit hle
    simp only [sinceFetch, decDigits?_repr]
    rw [List.filter_eq_nil_iff.mpr ?_, List.take_nil]
    intro i hi
    simpa using Nat.not_lt.mpr (hle i hi)
  refine ⟨?_, ?_, ?_, ?_, ?_, ?_, ?_⟩
  · intro file fetch last m rest h hf
    rw [checkRetweetsModel_run h hf]
    simp [fileSection, getSection_setSection_self]
  · intro file fetch last m rest h hf hsorted
    rw [checkRetweetsModel_run h hf]
    have hmax : maxIds (m :: rest) = m.id := by
      rcases List.pairwise_cons.mp hsorted with ⟨hr, _⟩
      refine Nat.le_antisymm (maxIds_le ?_) (le_maxIds (List.mem_cons_self _ _))
      intro i hi
      rcases List.mem_cons.mp hi with rfl | hi
      · exact Nat.le_refl _
      · exact hr i hi
    rw [hmax]
    simp [fileSection, getSection_setSection_self]
  · intro file fetch fomp last msgs h hf hne
    rcases hs : sortDesc msgs with _ | ⟨m, rest⟩
    · exact absurd (sortDesc_eq_nil_iff.mp hs) hne
    · rw [checkDirectMessagesModel_run h hf hs, ← sortDesc_head_id hs]
      simp [fileSection, getSection_setSection_self]
  · intro file mk candidates limit h hle
    exact checkRetweetsModel_empty h (hfilter candidates mk limit hle)
  · intro file mk candidates limit fomp h hle
    exact checkDirectMessagesModel_empty h
      (by rw [hfilter candidates mk limit hle])
  · intro file fetch last h hf
    exact checkRetweetsModel_empty h hf
  · intro file fetch fomp last h hf
    exact checkDirectMessagesModel_empty h hf

/-- C1 witness: the amended statement at concrete inputs — retweets fetch
5, 9, 3 persists 5; direct messages fetch 5, 9, 3 persists the maximum 9;
a refetch against marker 9 with candidates 5 and 3 reports nothing and
leaves the file untouched. -/
theorem C1_marker_amended_witness :
    fileSection (checkRetweetsModel none
        (fun _ => [⟨5, none, 0⟩, ⟨9, none, 0⟩, ⟨3, none, 0⟩])).file "Retweets"
      = some [("LatestSeen", Nat.repr 5)] ∧
    fileSection (checkDirectMessagesModel none
        (fun _ => .ok [⟨5, none, 0⟩, ⟨9, none, 0⟩, ⟨3, none, 0⟩]) false).file
        "DirectMessages"
      = some [("LatestSeen",
          Nat.repr (maxIds [⟨5, none, 0⟩, ⟨9, none, 0⟩, ⟨3, none, 0⟩]))] ∧
    checkRetweetsModel (some [("Retweets", [("LatestSeen", Nat.repr 9)])])
        (sinceFetch [⟨5, none, 0⟩, ⟨3, none, 0⟩] 50)
      = ⟨.ok [], some [("Retweets", [("LatestSeen", Nat.repr 9)])], []⟩ :=
  ⟨C1_marker_amended.1 none _ none ⟨5, none, 0⟩ [⟨9, none, 0⟩, ⟨3, none, 0⟩]
      rfl rfl,
   C1_marker_amended.2.2.1 none _ false none
      [⟨5, none, 0⟩, ⟨9, none, 0⟩, ⟨3, none, 0⟩] rfl rfl (by decide),
   C1_marker_amended.2.2.2.1 (some [("Retweets", [("LatestSeen", Nat.repr 9)])])
      9 [⟨5, none, 0⟩, ⟨3, none, 0⟩] 50 (by decide) (by decide)⟩

/-! ## Claim C9: persist before hooks, hook order -/

/-- C9 counterexample.  The claim says the notification hooks run in
descending identifier order for retweets, replies and direct messages.
`checkRetweets` has its sort commented out: fetched 5 then 9, the hooks
fire as 5 then 9, not 9 then 5. -/
theorem C9_hook_order_counterexample :
    (checkRetweetsModel none (fun _ => [⟨5, none, 0⟩, ⟨9, none, 0⟩])).trace
      = [.persist, .hook 5, .hook 9] ∧
    (checkRetweetsModel none (fun _ => [⟨5, none, 0⟩, ⟨9, none, 0⟩])).trace
      ≠ [.persist, .hook 9, .hook 5] := by
  decide

/-- C9 amended: whenever novel items are found, each of the three checks
persists the updated state first and then invokes the notification hook
exactly once per novel item; for replies and direct messages the hooks run
in descending identifier order (a sorted permutation of the novel items),
while for retweets they run in the order the remote returned the items. -/
theorem C9_hook_order_amended :
    (∀ (file : Option IniFile) (fetch : Option String → List Item)
        (last : Option String) (m : Item) (rest : List Item),
      loadMarker file "Retweets" = .ok last → fetch last = m :: rest →
      (checkRetweetsModel file fetch).trace =
        .persist :: (m :: rest).map (fun i => Ev.hook i.id)) ∧
    (∀ (file : Option IniFile) (fetch : Option String → Except DmErr (List Item))
        (fomp : Bool) (last : Option String) (msgs : List Item),
      loadMarker file "DirectMessages" = .ok last → fetch last = .ok msgs →
      msgs ≠ [] →
      ∃ sorted : List Item,
        (checkDirectMessagesModel file fetch fomp).trace =
          .persist :: sorted.map (fun i => Ev.hook i.id) ∧
        List.Perm sorted msgs ∧
        List.Pairwise (fun a b => b.id ≤ a.id) sorted) ∧
    (∀ (file : Option IniFile) (fetch : Option String → List Item) (myId : Nat)
        (last : Option String),
      loadMarker file "Replies" = .ok last →
      (fetch last).filter (fun i => i.replyTo = some myId) ≠ [] →
      ∃ sorted : List Item,
        (checkRepliesModel file fetch myId).trace =
          .persist :: sorted.map (fun i => Ev.hook i.id) ∧
        List.Perm sorted ((fetch last).filter (fun i => i.replyTo = some myId)) ∧
        List.Pairwise (fun a b => b.id ≤ a.id) sorted) := by
  refine ⟨?_, ?_, ?_⟩
  · intro file fetch last m rest h hf
    rw [checkRetweetsModel_run h hf]
  · intro file fetch fomp last msgs h hf hne
    rcases hs : sortDesc msgs with _ | ⟨m, rest⟩
    · exact absurd (sortDesc_eq_nil_iff.mp hs) hne
    · refine ⟨m :: rest, ?_, ?_, ?_⟩
      · rw [checkDirectMessagesModel_run h hf hs]
      · rw [← hs]; exact sortDesc_perm msgs
      · rw [← hs]; exact sortDesc_sorted msgs
  · intro file fetch myId last h hne
    rcases hs : sortDesc ((fetch last).filter (fun i => i.replyTo = some myId))
      with _ | ⟨m, rest⟩
    · exact absurd (sortDesc_eq_nil_iff.mp hs) hne
    · refine ⟨m :: rest, ?_, ?_, ?_⟩
      · rw [checkRepliesModel_run h hs]
      · rw [← hs]; exact sortDesc_perm _
      · rw [← hs]; exact sortDesc_sorted _

/-- C9 witness: the amended statement at concrete inputs for all three
checks. -/
theorem C9_hook_order_amended_witness :
    (checkRetweetsModel none (fun _ => [⟨4, none, 0⟩, ⟨6, none, 0⟩])).trace =
      .persist :: ([⟨4, none, 0⟩, ⟨6, none, 0⟩] : List Item).map
        (fun i => Ev.hook i.id) ∧
    (∃ sorted : List Item,
      (checkDirectMessagesModel none (fun _ => .ok [⟨4, none, 0⟩, ⟨6, none, 0⟩])
          false).trace =
        .persist :: sorted.map (fun i => Ev.hook i.id) ∧
      List.Perm sorted [⟨4, none, 0⟩, ⟨6, none, 0⟩] ∧
      List.Pairwise (fun a b => b.id ≤ a.id) sorted) ∧
    (∃ sorted : List Item,
      (checkRepliesModel none (fun _ => [⟨4, some 7, 0⟩, ⟨6, some 7, 0⟩]) 7).trace =
        .persist :: sorted.map (fun i => Ev.hook i.id) ∧
      List.Perm sorted
        (((fun _ => [⟨4, some 7, 0⟩, ⟨6, some 7, 0⟩]) (none : Option String)).filter
          (fun i => i.replyTo = some 7)) ∧
      List.Pairwise (fun a b => b.id ≤ a.id) sorted) :=
  ⟨C9_hook_order_amended.1 none _ none ⟨4, none, 0⟩ [⟨6, none, 0⟩] rfl rfl,
   C9_hook_order_amended.2.1 none _ false none [⟨4, none, 0⟩, ⟨6, none, 0⟩]
      rfl rfl (by decide),
   C9_hook_order_amended.2.2 none _ 7 none rfl (by decide)⟩
